import Mathlib

/-!
Verification development for the abstract CLI process-manager engine
(`AbstractCliManager`): availability probing and caching, PTY spawn with
interpreter fallback, the line-oriented output pipeline, exit handling,
process-tree reaping, and the panel registry.  Each definition is a shallow
embedding of the corresponding source function; strings carrying message
content are modelled as `List Char` so that splitting, joining and
substring facts are directly computable.
-/

namespace Crystal

/-! ## Shared string helpers (JS semantics) -/

/-- JS `String.prototype.trim`: drop whitespace from both ends. -/
def jsTrim (l : List Char) : List Char :=
  ((l.dropWhile Char.isWhitespace).reverse.dropWhile Char.isWhitespace).reverse

/-- JS truthiness of `s.trim()`: false exactly when the trimmed string is empty.
`isBlank l = true` means the line is skipped by `if (line.trim())`. -/
def isBlank (l : List Char) : Bool := (jsTrim l).isEmpty

/-- JS `String.prototype.substring(start)` with a single argument: the start
index is clamped into `[0, length]`, the end is the string length.  In
particular a negative start returns the whole string. -/
def jsSubstring (s : List Char) (start : Int) : List Char :=
  s.drop (max start 0).toNat

/-! ## OutputPipeline (`setupProcessHandlers` onData, lines 668-685)

The handler keeps a buffer, appends each data chunk, splits on `'\n'`,
keeps the final (possibly incomplete) element as the new buffer
(`buffer = lines.pop() || ''`), and hands every complete non-blank line,
with its newline restored, to `parseCliOutput`. -/

/-- Split a character stream into its complete lines (everything before each
`'\n'`, in order) and the trailing incomplete remainder.  This is exactly
`lines = buffer.split('\n'); buffer = lines.pop() || ''` of the source:
the first component is `lines`, the second the new `buffer`. -/
def splitComplete : List Char → List (List Char) × List Char
  | [] => ([], [])
  | c :: cs =>
    let r := splitComplete cs
    if c = '\n' then ([] :: r.1, r.2)
    else
      match r.1 with
      | [] => ([], c :: r.2)
      | l :: ls => ((c :: l) :: ls, r.2)

/-- The events produced for a list of complete lines: blank lines are skipped
(`if (line.trim())`), every other line is passed to the parser with its
newline restored (`parseCliOutput(line + '\n', …)`). -/
def emitForLines {E : Type} (parse : List Char → List E) (lines : List (List Char)) : List E :=
  (lines.filter (fun l => !(isBlank l))).flatMap (fun l => parse (l ++ ['\n']))

/-- One `onData` callback: append the chunk to the buffer, split off complete
lines, emit their parsed events, keep the remainder as the new buffer. -/
def feedOne {E : Type} (parse : List Char → List E) (buf chunk : List Char) :
    List E × List Char :=
  let r := splitComplete (buf ++ chunk)
  (emitForLines parse r.1, r.2)

/-- Feeding a sequence of chunks through the pipeline, accumulating the
emitted events in order. -/
def feedAll {E : Type} (parse : List Char → List E) (buf : List Char) :
    List (List Char) → List E × List Char
  | [] => ([], buf)
  | c :: cs =>
    let r := feedOne parse buf c
    let r2 := feedAll parse r.2 cs
    (r.1 ++ r2.1, r2.2)

/-- `splitComplete` over an append: the complete lines of `a` come first, and
the remainder of `a` carries over into `b`. -/
theorem splitComplete_append (a b : List Char) :
    splitComplete (a ++ b) =
      ((splitComplete a).1 ++ (splitComplete ((splitComplete a).2 ++ b)).1,
        (splitComplete ((splitComplete a).2 ++ b)).2) := by
  induction a with
  | nil => simp [splitComplete]
  | cons c a ih =>
    simp only [List.cons_append, splitComplete, List.append_eq]
    rw [ih]
    by_cases hc : c = '\n'
    · simp [hc]
    · simp only [if_neg hc]
      rcases h1 : (splitComplete a).1 with _ | ⟨l, ls⟩ <;>
        rcases h2 : (splitComplete ((splitComplete a).2 ++ b)).1 with _ | ⟨l2, ls2⟩ <;>
        simp_all [splitComplete, if_neg hc]

/-- The remainder produced by `splitComplete` never contains a newline. -/
theorem splitComplete_snd_no_newline (l : List Char) : '\n' ∉ (splitComplete l).2 := by
  induction l with
  | nil => simp [splitComplete]
  | cons c cs ih =>
    by_cases hc : c = '\n'
    · simpa [splitComplete, hc] using ih
    · rcases h1 : (splitComplete cs).1 with _ | ⟨l0, ls⟩
      · simp only [splitComplete, if_neg hc, h1, List.mem_cons, not_or]
        exact ⟨fun h => hc h.symm, by simpa [h1] using ih⟩
      · simpa [splitComplete, if_neg hc, h1] using ih

/-- A newline-free stream has no complete line: it is all remainder. -/
theorem splitComplete_of_no_newline (l : List Char) (h : '\n' ∉ l) :
    splitComplete l = ([], l) := by
  induction l with
  | nil => rfl
  | cons c cs ih =>
    simp only [List.mem_cons, not_or] at h
    have hc : ¬c = '\n' := fun hcc => h.1 hcc.symm
    simp [splitComplete, hc, ih h.2]

/-- `emitForLines` is a homomorphism over line-list append. -/
theorem emitForLines_append {E : Type} (parse : List Char → List E)
    (l1 l2 : List (List Char)) :
    emitForLines parse (l1 ++ l2) = emitForLines parse l1 ++ emitForLines parse l2 := by
  simp [emitForLines, List.filter_append]

/-- Feeding chunks one by one from a newline-free buffer is the same as
feeding their concatenation at once. -/
theorem feedAll_eq_feedOne_flatten {E : Type} (parse : List Char → List E)
    (chunks : List (List Char)) (buf : List Char) (hb : '\n' ∉ buf) :
    feedAll parse buf chunks = feedOne parse buf chunks.flatten := by
  induction chunks generalizing buf with
  | nil =>
    simp [feedAll, feedOne, splitComplete_of_no_newline buf hb, emitForLines]
  | cons c cs ih =>
    have hb2 : '\n' ∉ (splitComplete (buf ++ c)).2 := splitComplete_snd_no_newline _
    simp only [feedAll, feedOne, ih _ hb2, List.flatten_cons]
    have := splitComplete_append (buf ++ c) cs.flatten
    rw [← List.append_assoc, this, emitForLines_append]

/-- C4.  Chunk-boundary independence of the output pipeline: feeding any list
of chunks in order yields the same parsed-event sequence and final buffer as
feeding the whole concatenated text as one chunk; in particular
`"abc\ndef\n"` in one chunk equals `"ab"`, `"c\nde"`, `"f\n"` in three. -/
theorem c4_pipeline_chunk_independence :
    (∀ (E : Type) (parse : List Char → List E) (chunks : List (List Char)),
        feedAll parse [] chunks = feedAll parse [] [chunks.flatten]) ∧
      feedAll (fun l => [l]) [] ["abc\ndef\n".toList] =
        feedAll (fun l => [l]) [] ["ab".toList, "c\nde".toList, "f\n".toList] := by
  constructor
  · intro E parse chunks
    rw [feedAll_eq_feedOne_flatten parse chunks [] (by simp),
      feedAll_eq_feedOne_flatten parse [chunks.flatten] [] (by simp)]
    simp
  · decide

/-! ## Runtime failure reporting (`handleProcessRuntimeFailure`, lines 781-800)

The handler formats `details` from `lastOutput` using the JS expression
`lastOutput.substring(-500)`. -/

/-- The `details` string of the runtime-failure error event:
`lastOutput.length > 0 ? "Last output:\n" + lastOutput.substring(-500)
: "No additional details available"`. -/
def runtimeFailureDetails (lastOutput : List Char) : List Char :=
  if lastOutput.length > 0 then
    "Last output:\n".toList ++ jsSubstring lastOutput (-500)
  else
    "No additional details available".toList

/-- The `details` string of the startup-failure error event (static remediation
text mentioning the exit code and, when truthy, the signal). -/
def startupFailureDetails (toolName : List Char) (exitCode : Int) (signal : Option Int) :
    List Char :=
  "This usually means ".toList ++ toolName ++
    " is not installed properly or not found in your PATH.\n\nPlease ensure:\n1. ".toList ++
    toolName ++ " is installed\n2. The \"".toList ++ toolName ++
    "\" command is available in your terminal\n3. Your PATH environment variable includes the installation directory\n\nExit code: ".toList ++
    (toString exitCode).toList ++
    (match signal with
      | some s => if s ≠ 0 then ", Signal: ".toList ++ (toString s).toList else []
      | none => []) ++
    "\n\nYou can also set a custom executable path in the Settings.".toList

/-! ## Exit handling (`setupProcessHandlers` onExit, lines 687-740)

The handler runs, in order: orphan reaping (when descendants exist), the
final buffer flush through the parser (when the buffer is non-blank), the
startup/runtime failure classification (when the exit code is non-zero),
the CLI-specific resource cleanup, the `exit` event emission, and finally
the registry deletion `this.processes.delete(panelId)`. -/

/-- One observable step of the exit handler, in program order. -/
inductive ExitAction (E : Type) where
  | reapKill
  | reapOutput
  | parserFlush (content : List Char)
  | emitOutput (e : E)
  | failureOutput (startup : Bool) (details : List Char)
  | cleanupResources (sessionId : String)
  | emitExit (exitCode : Int) (signal : Option Int)
  | deleteEntry (panelId : String)
  deriving DecidableEq

/-- The state the `onExit` closure sees: the tool parser, the ids, the
`hasReceivedOutput` / `lastOutput` / `buffer` locals, the descendant pids
found after exit, and the exit code / signal delivered by the PTY. -/
structure ExitCtx (E : Type) where
  parse : List Char → List E
  toolName : List Char
  panelId : String
  sessionId : String
  hasReceivedOutput : Bool
  lastOutput : List Char
  buffer : List Char
  descendantPids : List Nat
  exitCode : Int
  signal : Option Int

/-- The exact sequence of steps the `onExit` handler performs. -/
def exitHandler {E : Type} (c : ExitCtx E) : List (ExitAction E) :=
  (if c.descendantPids.isEmpty then [] else [.reapKill, .reapOutput]) ++
  (if isBlank c.buffer then []
   else ExitAction.parserFlush c.buffer :: (c.parse c.buffer).map ExitAction.emitOutput) ++
  (if c.exitCode ≠ 0 then
    if c.hasReceivedOutput then
      [.failureOutput false (runtimeFailureDetails c.lastOutput)]
    else
      [.failureOutput true (startupFailureDetails c.toolName c.exitCode c.signal)]
   else []) ++
  [.cleanupResources c.sessionId, .emitExit c.exitCode c.signal, .deleteEntry c.panelId]

/-- Is this step the `exit` event emission? -/
def isEmitExit {E : Type} : ExitAction E → Bool
  | .emitExit _ _ => true
  | _ => false

/-- Is this step the registry deletion of the given panel? -/
def isDeleteFor {E : Type} (panelId : String) : ExitAction E → Bool
  | .deleteEntry q => q == panelId
  | _ => false

/-- Is this step the buffer flush through the parser? -/
def isParserFlush {E : Type} : ExitAction E → Bool
  | .parserFlush _ => true
  | _ => false

/-- The steps performed strictly before the `exit` event is emitted. -/
def beforeExit {E : Type} (t : List (ExitAction E)) : List (ExitAction E) :=
  t.takeWhile (fun a => !(isEmitExit a))

/-- Whether, starting from a registry containing `panelId`, the registry still
contains it after the given steps have executed. -/
def runningAt {E : Type} (panelId : String) (t : List (ExitAction E)) : Bool :=
  !(t.any (isDeleteFor panelId))

/-- What a synchronous observer of the `exit` event sees when it queries
`isPanelRunning(panelId)`: the registry state at the moment of emission. -/
def seesRunningAtExit {E : Type} (panelId : String) (t : List (ExitAction E)) : Bool :=
  runningAt panelId (beforeExit t)

theorem takeWhile_append_of_all {α : Type} (p : α → Bool) (l1 l2 : List α)
    (h : ∀ a ∈ l1, p a = true) :
    (l1 ++ l2).takeWhile p = l1 ++ l2.takeWhile p := by
  induction l1 with
  | nil => simp
  | cons x xs ih =>
    have hx : p x = true := h x (List.mem_cons_self x xs)
    simp [List.takeWhile_cons, hx, ih (fun a ha => h a (List.mem_cons_of_mem x ha))]

/-- The steps the exit handler performs before the final
cleanup / exit-emission / registry-deletion triple. -/
def exitEarlySteps {E : Type} (c : ExitCtx E) : List (ExitAction E) :=
  (if c.descendantPids.isEmpty then [] else [.reapKill, .reapOutput]) ++
  (if isBlank c.buffer then []
   else ExitAction.parserFlush c.buffer :: (c.parse c.buffer).map ExitAction.emitOutput) ++
  (if c.exitCode ≠ 0 then
    if c.hasReceivedOutput then
      [.failureOutput false (runtimeFailureDetails c.lastOutput)]
    else
      [.failureOutput true (startupFailureDetails c.toolName c.exitCode c.signal)]
   else [])

theorem exitHandler_eq {E : Type} (c : ExitCtx E) :
    exitHandler c = exitEarlySteps c ++
      [ExitAction.cleanupResources c.sessionId, ExitAction.emitExit c.exitCode c.signal,
        ExitAction.deleteEntry c.panelId] := rfl

/-- Every step before the final cleanup-exit-delete triple is neither the exit
emission nor a registry deletion. -/
theorem exitEarlySteps_benign {E : Type} (c : ExitCtx E) (pid : String) :
    ∀ a ∈ exitEarlySteps c, isEmitExit a = false ∧ isDeleteFor pid a = false := by
  intro a ha
  rcases List.mem_append.1 ha with h12 | h3
  · rcases List.mem_append.1 h12 with h1 | h2
    · split at h1
      · exact absurd h1 (List.not_mem_nil a)
      · simp only [List.mem_cons, List.not_mem_nil, or_false] at h1
        rcases h1 with rfl | rfl <;> exact ⟨rfl, rfl⟩
    · split at h2
      · exact absurd h2 (List.not_mem_nil a)
      · simp only [List.mem_cons] at h2
        rcases h2 with rfl | h2
        · exact ⟨rfl, rfl⟩
        · obtain ⟨e, _, rfl⟩ := List.mem_map.1 h2
          exact ⟨rfl, rfl⟩
  · split at h3
    · split at h3 <;>
      · simp only [List.mem_cons, List.not_mem_nil, or_false] at h3
        subst h3
        exact ⟨rfl, rfl⟩
    · exact absurd h3 (List.not_mem_nil a)

/-- The steps before the exit emission are exactly the prefix plus the
resource cleanup. -/
theorem beforeExit_exitHandler {E : Type} (c : ExitCtx E) :
    beforeExit (exitHandler c) =
      exitEarlySteps c ++ [ExitAction.cleanupResources c.sessionId] := by
  rw [beforeExit, exitHandler_eq,
    takeWhile_append_of_all _ _ _
      (fun a ha => by simp [(exitEarlySteps_benign c c.panelId a ha).1])]
  simp [List.takeWhile_cons, isEmitExit]

/-- C1 (amended).  On natural process exit the CLI-specific cleanup runs
before the `exit` event is emitted, but the registry entry is removed only
after the emission: a synchronous observer of the `exit` event still sees
`isPanelRunning(panelId) = true`; the entry is gone once the handler has
finished. -/
theorem c1_exit_event_ordering {E : Type} (c : ExitCtx E) :
    ExitAction.cleanupResources c.sessionId ∈ beforeExit (exitHandler c) ∧
    seesRunningAtExit c.panelId (exitHandler c) = true ∧
    runningAt c.panelId (exitHandler c) = false ∧
    ExitAction.emitExit c.exitCode c.signal ∈ exitHandler c := by
  refine ⟨?_, ?_, ?_, ?_⟩
  · rw [beforeExit_exitHandler]
    exact List.mem_append_right _ (List.mem_singleton.2 rfl)
  · rw [seesRunningAtExit, beforeExit_exitHandler, runningAt]
    simp only [List.any_append, Bool.not_eq_true', Bool.or_eq_false_iff]
    refine ⟨List.any_eq_false.2
      (fun a ha => by simp [(exitEarlySteps_benign c c.panelId a ha).2]), ?_⟩
    simp [isDeleteFor]
  · rw [runningAt, exitHandler_eq]
    simp [isDeleteFor]
  · rw [exitHandler_eq]
    exact List.mem_append_right _ (by simp)

/-- A concrete exit context: normal exit, empty buffer, no descendants. -/
def c1ctx : ExitCtx Nat :=
  { parse := fun l => [l.length], toolName := "claude".toList, panelId := "p1",
    sessionId := "s1", hasReceivedOutput := true, lastOutput := "out".toList,
    buffer := [], descendantPids := [], exitCode := 0, signal := none }

/-- C1 as frozen is false on the code: at the moment the `exit` event is
emitted, the registry entry for the exited panel is still present, so an
observer of the event sees `isPanelRunning(panelId) = true`. -/
theorem c1_counterexample :
    seesRunningAtExit "p1" (exitHandler c1ctx) = true ∧
      ExitAction.emitExit 0 none ∈ exitHandler c1ctx := by decide

/-- C5 (amended).  When the exit-time buffer is non-blank (nonempty after
trimming), it is flushed through the parser exactly once, before the exit
event, and every event the parser returns for it is emitted before the exit
event. -/
theorem countP_eq_zero_of_all {E : Type} (p : ExitAction E → Bool)
    (l : List (ExitAction E)) (hl : ∀ a ∈ l, p a = false) : l.countP p = 0 :=
  List.countP_eq_zero.2 (by simpa using hl)

theorem c5_flush_before_exit {E : Type} (c : ExitCtx E) (h : isBlank c.buffer = false) :
    (exitHandler c).countP isParserFlush = 1 ∧
    ExitAction.parserFlush c.buffer ∈ beforeExit (exitHandler c) ∧
    ∀ e ∈ c.parse c.buffer, ExitAction.emitOutput e ∈ beforeExit (exitHandler c) := by
  have hneg : ¬(isBlank c.buffer = true) := by simp [h]
  have hA : (if c.descendantPids.isEmpty then ([] : List (ExitAction E))
      else [.reapKill, .reapOutput]).countP isParserFlush = 0 := by
    split <;> rfl
  have hC : (if c.exitCode ≠ 0 then
      if c.hasReceivedOutput then
        ([ExitAction.failureOutput false (runtimeFailureDetails c.lastOutput)] :
          List (ExitAction E))
      else
        [ExitAction.failureOutput true (startupFailureDetails c.toolName c.exitCode c.signal)]
     else []).countP isParserFlush = 0 := by
    split
    · split <;> rfl
    · rfl
  have hMap : ((c.parse c.buffer).map ExitAction.emitOutput).countP isParserFlush = 0 :=
    countP_eq_zero_of_all isParserFlush _
      (fun a ha => by obtain ⟨e, _, rfl⟩ := List.mem_map.1 ha; rfl)
  have hB : (ExitAction.parserFlush c.buffer ::
      (c.parse c.buffer).map ExitAction.emitOutput).countP isParserFlush = 1 := by
    rw [List.countP_cons, hMap]
    rfl
  refine ⟨?_, ?_, ?_⟩
  · rw [exitHandler_eq, List.countP_append]
    unfold exitEarlySteps
    rw [List.countP_append, List.countP_append, hA, hC, if_neg hneg, hB]
    rfl
  · rw [beforeExit_exitHandler]
    apply List.mem_append_left
    unfold exitEarlySteps
    apply List.mem_append_left
    apply List.mem_append_right
    rw [if_neg hneg]
    exact List.mem_cons_self _ _
  · intro e he
    rw [beforeExit_exitHandler]
    apply List.mem_append_left
    unfold exitEarlySteps
    apply List.mem_append_left
    apply List.mem_append_right
    rw [if_neg hneg]
    exact List.mem_cons_of_mem _ (List.mem_map.2 ⟨e, he, rfl⟩)

/-- A concrete exit context with a whitespace-only (hence nonempty) buffer. -/
def c5ctx : ExitCtx Nat :=
  { parse := fun l => [l.length], toolName := "claude".toList, panelId := "p1",
    sessionId := "s1", hasReceivedOutput := true, lastOutput := " ".toList,
    buffer := [' '], descendantPids := [], exitCode := 0, signal := none }

/-- C5 as frozen is false on the code: a whitespace-only buffer is non-empty
yet is never flushed through the parser, because the flush is guarded by
`if (buffer.trim())`. -/
theorem c5_counterexample :
    c5ctx.buffer.isEmpty = false ∧ (exitHandler c5ctx).countP isParserFlush = 0 := by
  decide

/-- A concrete exit context with a non-blank buffer, for the C5 witness. -/
def c5ctxW : ExitCtx Nat :=
  { parse := fun l => [l.length], toolName := "claude".toList, panelId := "p1",
    sessionId := "s1", hasReceivedOutput := true, lastOutput := "abc".toList,
    buffer := "abc".toList, descendantPids := [7], exitCode := 1, signal := none }

theorem c5_flush_before_exit_witness :
    (exitHandler c5ctxW).countP isParserFlush = 1 ∧
    ExitAction.parserFlush c5ctxW.buffer ∈ beforeExit (exitHandler c5ctxW) ∧
    ∀ e ∈ c5ctxW.parse c5ctxW.buffer,
      ExitAction.emitOutput e ∈ beforeExit (exitHandler c5ctxW) :=
  c5_flush_before_exit c5ctxW (by decide)

/-- C9.  The runtime-failure handler's "last output" excerpt: JS
`substring(-500)` clamps the start index to 0, so on a 501-character output
the reported excerpt is the entire output — 501 characters, not at most the
last 500. -/
theorem c9_substring_not_truncated :
    jsSubstring (List.replicate 501 'x') (-500) = List.replicate 501 'x' ∧
    500 < (jsSubstring (List.replicate 501 'x') (-500)).length ∧
    runtimeFailureDetails (List.replicate 501 'x') =
      "Last output:\n".toList ++ List.replicate 501 'x' := by
  have h0 : ((max (-500 : Int) 0).toNat) = 0 := by decide
  have hgen : ∀ s : List Char, jsSubstring s (-500) = s := fun s => by
    rw [jsSubstring, h0, List.drop_zero]
  refine ⟨hgen _, ?_, ?_⟩
  · rw [hgen, List.length_replicate]
    norm_num
  · rw [runtimeFailureDetails, if_pos (by rw [List.length_replicate]; norm_num), hgen]

/-! ## PTY spawn with Node.js fallback (`spawnPtyProcess`, lines 556-658)

The spawn loop makes at most two attempts.  Attempt 0 is a direct spawn of
the command unless the process-wide flag `global[toolName.toLowerCase() +
"NeedsNodeFallback"]` is already set, in which case the Node.js fallback is
used immediately.  On a first-attempt failure whose message looks
shebang/interpreter-shaped, the sticky flag is set and one retry is made via
the located Node interpreter; any other failure, or a second failure, ends
the call with `Failed to spawn <tool>: <last error message>`. -/

/-- Which spawn path an attempt takes: a direct `pty.spawn(command, args)` or
the Node.js fallback `pty.spawn(nodePath, [...script, ...args])`. -/
inductive SpawnMode where
  | direct
  | nodeFallback
  deriving DecidableEq

/-- The shebang/interpreter-resolution error test of lines 641-644:
`errorMsg.includes('No such file or directory') || errorMsg.includes('env: node:')
|| errorMsg.includes('is not recognized') || errorMsg.includes('ENOENT')`. -/
def isShebangError (msg : List Char) : Bool :=
  decide ("No such file or directory".toList <:+: msg) ||
  decide ("env: node:".toList <:+: msg) ||
  decide ("is not recognized".toList <:+: msg) ||
  decide ("ENOENT".toList <:+: msg)

/-- The process-wide sticky flags, keyed by
`toolName.toLowerCase() + "NeedsNodeFallback"`. -/
abbrev GlobalFlags : Type := List (String × Bool)

/-- `${this.getCliToolName().toLowerCase()}NeedsNodeFallback`. -/
def needsNodeFallbackKey (toolName : String) : String :=
  ⟨toolName.toList.map Char.toLower⟩ ++ "NeedsNodeFallback"

/-- Read a global flag (absent keys are falsy in JS). -/
def getFlag (g : GlobalFlags) (k : String) : Bool :=
  ((g.find? (fun kv => kv.1 == k)).map (·.2)).getD false

/-- Set a global flag to `true`. -/
def setFlag (g : GlobalFlags) (k : String) : GlobalFlags := (k, true) :: g

/-- The error thrown after all attempts fail:
`Failed to spawn ${this.getCliToolName()}: ${errorMsg}`. -/
def spawnFailMsg (toolName : String) (errorMsg : List Char) : List Char :=
  "Failed to spawn ".toList ++ toolName.toList ++ ": ".toList ++ errorMsg

/-- The outcome of one `spawnPtyProcess` call: the returned handle or thrown
error, the global flags afterwards, and the spawn attempts made in order. -/
structure SpawnOutcome where
  result : Except (List Char) Nat
  flags : GlobalFlags
  attempts : List SpawnMode

/-- `spawnPtyProcess`, with the OS spawn modelled by `spawnFn attempt mode`
(the attempt number distinguishes the two tries of one call).  The while loop
of lines 572-652 is unrolled: it runs at most twice, and only continues past
the first iteration when the first failure is shebang-shaped and the flag was
not already set. -/
def spawnPtyProcessModel (toolName : String) (g : GlobalFlags)
    (spawnFn : Nat → SpawnMode → Except (List Char) Nat) : SpawnOutcome :=
  let key := needsNodeFallbackKey toolName
  let flag0 := getFlag g key
  let mode0 := if flag0 then SpawnMode.nodeFallback else SpawnMode.direct
  match spawnFn 0 mode0 with
  | .ok h => { result := .ok h, flags := g, attempts := [mode0] }
  | .error e0 =>
    if !flag0 && isShebangError e0 then
      let g1 := setFlag g key
      match spawnFn 1 SpawnMode.nodeFallback with
      | .ok h => { result := .ok h, flags := g1, attempts := [mode0, .nodeFallback] }
      | .error e1 =>
        { result := .error (spawnFailMsg toolName e1), flags := g1,
          attempts := [mode0, .nodeFallback] }
    else
      { result := .error (spawnFailMsg toolName e0), flags := g, attempts := [mode0] }

/-- C2.  A first direct spawn failing with a shebang/interpreter-shaped error
sets the sticky fallback flag for the tool and retries exactly once via the
Node interpreter; and any spawn call made while the tool's flag is set never
makes a direct attempt. -/
theorem c2_sticky_node_fallback (toolName : String) (g : GlobalFlags)
    (spawnFn : Nat → SpawnMode → Except (List Char) Nat) (e0 : List Char)
    (hflag : getFlag g (needsNodeFallbackKey toolName) = false)
    (hfail : spawnFn 0 SpawnMode.direct = .error e0)
    (hsheb : isShebangError e0 = true) :
    ((spawnPtyProcessModel toolName g spawnFn).attempts =
        [SpawnMode.direct, SpawnMode.nodeFallback] ∧
      getFlag (spawnPtyProcessModel toolName g spawnFn).flags
        (needsNodeFallbackKey toolName) = true) ∧
    ∀ (g2 : GlobalFlags) (f2 : Nat → SpawnMode → Except (List Char) Nat),
      getFlag g2 (needsNodeFallbackKey toolName) = true →
      SpawnMode.direct ∉ (spawnPtyProcessModel toolName g2 f2).attempts := by
  constructor
  · rw [spawnPtyProcessModel]
    simp only [hflag, Bool.false_eq_true, if_false, hfail, Bool.not_false, hsheb,
      Bool.and_self, if_true]
    constructor
    · cases spawnFn 1 SpawnMode.nodeFallback <;> rfl
    · cases spawnFn 1 SpawnMode.nodeFallback <;> simp [getFlag, setFlag]
  · intro g2 f2 hset
    rw [spawnPtyProcessModel]
    simp only [hset, if_true]
    cases f2 0 SpawnMode.nodeFallback with
    | ok h => simp
    | error e =>
      simp only [Bool.not_true, Bool.false_and, Bool.false_eq_true, if_false]
      simp

theorem c2_sticky_node_fallback_witness :
    ((spawnPtyProcessModel "claude" []
        (fun n _ => if n = 0 then .error "ENOENT".toList else .ok 7)).attempts =
        [SpawnMode.direct, SpawnMode.nodeFallback] ∧
      getFlag (spawnPtyProcessModel "claude" []
        (fun n _ => if n = 0 then .error "ENOENT".toList else .ok 7)).flags
        (needsNodeFallbackKey "claude") = true) ∧
    ∀ (g2 : GlobalFlags) (f2 : Nat → SpawnMode → Except (List Char) Nat),
      getFlag g2 (needsNodeFallbackKey "claude") = true →
      SpawnMode.direct ∉ (spawnPtyProcessModel "claude" g2 f2).attempts :=
  c2_sticky_node_fallback "claude" []
    (fun n _ => if n = 0 then .error "ENOENT".toList else .ok 7)
    "ENOENT".toList (by decide) rfl (by decide)

/-- C3.  Every `spawnPtyProcess` call makes at most two attempts; a
first-attempt failure that is not shebang-shaped is not retried and the call
fails with an error carrying that failure's message; and when a shebang-shaped
first failure is followed by a failing retry, the call fails with an error
carrying the second (last) failure's message as a suffix. -/
theorem c3_at_most_two_attempts (toolName : String) (g : GlobalFlags)
    (spawnFn : Nat → SpawnMode → Except (List Char) Nat) :
    (spawnPtyProcessModel toolName g spawnFn).attempts.length ≤ 2 ∧
    (∀ e0 : List Char,
      getFlag g (needsNodeFallbackKey toolName) = false →
      spawnFn 0 SpawnMode.direct = .error e0 →
      isShebangError e0 = false →
      (spawnPtyProcessModel toolName g spawnFn).attempts = [SpawnMode.direct] ∧
        (spawnPtyProcessModel toolName g spawnFn).result =
          .error (spawnFailMsg toolName e0) ∧
        e0 <:+ spawnFailMsg toolName e0) ∧
    (∀ e0 e1 : List Char,
      getFlag g (needsNodeFallbackKey toolName) = false →
      spawnFn 0 SpawnMode.direct = .error e0 →
      isShebangError e0 = true →
      spawnFn 1 SpawnMode.nodeFallback = .error e1 →
      (spawnPtyProcessModel toolName g spawnFn).result =
          .error (spawnFailMsg toolName e1) ∧
        e1 <:+ spawnFailMsg toolName e1) := by
  refine ⟨?_, ?_, ?_⟩
  · rw [spawnPtyProcessModel]
    cases spawnFn 0 (if getFlag g (needsNodeFallbackKey toolName) then
        SpawnMode.nodeFallback else SpawnMode.direct) with
    | ok h => simp
    | error e =>
      simp only []
      split
      · cases spawnFn 1 SpawnMode.nodeFallback <;> simp
      · simp
  · intro e0 hflag hfail hnosheb
    rw [spawnPtyProcessModel]
    simp only [hflag, Bool.false_eq_true, if_false, hfail, Bool.not_false, hnosheb,
      Bool.and_false, if_false]
    exact ⟨trivial, trivial, List.suffix_append _ _⟩
  · intro e0 e1 hflag hfail hsheb hfail2
    rw [spawnPtyProcessModel]
    simp only [hflag, Bool.false_eq_true, if_false, hfail, Bool.not_false, hsheb,
      Bool.and_self, if_true, hfail2]
    exact ⟨trivial, List.suffix_append _ _⟩

theorem c3_at_most_two_attempts_witness :
    (spawnPtyProcessModel "claude" []
        (fun _ _ => .error "permission denied".toList)).attempts.length ≤ 2 ∧
    ((spawnPtyProcessModel "claude" []
        (fun _ _ => .error "permission denied".toList)).attempts = [SpawnMode.direct] ∧
      (spawnPtyProcessModel "claude" []
        (fun _ _ => .error "permission denied".toList)).result =
        .error (spawnFailMsg "claude" "permission denied".toList) ∧
      "permission denied".toList <:+ spawnFailMsg "claude" "permission denied".toList) :=
  ⟨(c3_at_most_two_attempts "claude" [] (fun _ _ => .error "permission denied".toList)).1,
    (c3_at_most_two_attempts "claude" []
      (fun _ _ => .error "permission denied".toList)).2.1
      "permission denied".toList (by decide) rfl (by decide)⟩

/-! ## Availability cache (`getCachedAvailability`, lines 452-470, and
`clearAvailabilityCache`, lines 310-313) -/

/-- The result of `testCliAvailability`. -/
structure AvailabilityResult where
  available : Bool
  error : Option (List Char)
  version : Option (List Char)
  path : Option (List Char)
  deriving DecidableEq

/-- `CACHE_TTL = 5 * 60 * 1000` milliseconds. -/
def CACHE_TTL : Nat := 5 * 60 * 1000

/-- `getCachedAvailability`: return the cached result while
`Date.now() - timestamp < CACHE_TTL`, otherwise invoke
`testCliAvailability(customPath)` and re-cache it with the current time.
Returns the result, the new cache field, and whether the underlying check
was invoked. -/
def getCachedAvailabilityModel (check : Option (List Char) → AvailabilityResult)
    (customPath : Option (List Char)) (now : Nat)
    (cache : Option (AvailabilityResult × Nat)) :
    AvailabilityResult × Option (AvailabilityResult × Nat) × Bool :=
  match cache with
  | some (r, ts) =>
    if now - ts < CACHE_TTL then (r, some (r, ts), false)
    else
      let fresh := check customPath
      (fresh, some (fresh, now), true)
  | none =>
    let fresh := check customPath
    (fresh, some (fresh, now), true)

/-- `clearAvailabilityCache`: `this.availabilityCache = null`. -/
def clearAvailabilityCacheModel (_cache : Option (AvailabilityResult × Nat)) :
    Option (AvailabilityResult × Nat) := none

/-- C7.  Two probes within the TTL: the first (on an empty cache) invokes the
underlying check and caches; the second returns the identical result without
invoking it.  A probe whose cache entry is TTL-expired re-invokes the check
with the configured custom path and re-caches at the probe time, and a probe
after an explicit `clearAvailabilityCache` does the same. -/
theorem c7_availability_cache (check : Option (List Char) → AvailabilityResult)
    (customPath : Option (List Char)) (t1 t2 : Nat) (hTTL : t2 - t1 < CACHE_TTL) :
    (let p1 := getCachedAvailabilityModel check customPath t1 none
     let p2 := getCachedAvailabilityModel check customPath t2 p1.2.1
     p1.2.2 = true ∧ p2.2.2 = false ∧ p2.1 = p1.1) ∧
    (∀ (r : AvailabilityResult) (ts now : Nat), now - ts ≥ CACHE_TTL →
      getCachedAvailabilityModel check customPath now (some (r, ts)) =
        (check customPath, some (check customPath, now), true)) ∧
    (∀ (cache : Option (AvailabilityResult × Nat)) (now : Nat),
      getCachedAvailabilityModel check customPath now
          (clearAvailabilityCacheModel cache) =
        (check customPath, some (check customPath, now), true)) := by
  refine ⟨?_, ?_, ?_⟩
  · simp [getCachedAvailabilityModel, hTTL]
  · intro r ts now hexp
    have hlt : ¬(now - ts < CACHE_TTL) := by omega
    simp [getCachedAvailabilityModel, hlt]
  · intro cache now
    rfl

theorem c7_availability_cache_witness :
    (let check : Option (List Char) → AvailabilityResult :=
      fun p => { available := true, error := none, version := some "1.2.3".toList,
                 path := p }
     let p1 := getCachedAvailabilityModel check (some "/usr/bin/claude".toList) 1000 none
     let p2 := getCachedAvailabilityModel check (some "/usr/bin/claude".toList) 2000 p1.2.1
     p1.2.2 = true ∧ p2.2.2 = false ∧ p2.1 = p1.1) ∧
    getCachedAvailabilityModel
        (fun p => { available := true, error := none, version := some "1.2.3".toList,
                    path := p })
        (some "/usr/bin/claude".toList) 400000
        (some ({ available := false, error := some "stale".toList, version := none,
                 path := none }, 0)) =
      ({ available := true, error := none, version := some "1.2.3".toList,
         path := some "/usr/bin/claude".toList },
       some ({ available := true, error := none, version := some "1.2.3".toList,
               path := some "/usr/bin/claude".toList }, 400000), true) :=
  ⟨(c7_availability_cache _ (some "/usr/bin/claude".toList) 1000 2000 (by decide)).1,
    (c7_availability_cache _ (some "/usr/bin/claude".toList) 1000 2000 (by decide)).2.1
      { available := false, error := some "stale".toList, version := none, path := none }
      0 400000 (by decide)⟩

/-! ## Process registry (`processes : Map<string, CliProcess>`) and
`sendInput` (lines 206-220) -/

/-- The `CliProcess` record stored in the registry (lines 13-18); the PTY
handle is modelled by its pid. -/
structure CliProcess where
  pid : Nat
  panelId : String
  sessionId : String
  worktreePath : String
  deriving DecidableEq

/-- The manager's `processes` map, keyed by panelId, in insertion order. -/
abbrev Registry : Type := List (String × CliProcess)

/-- JS `Map.prototype.set`: update the existing key in place, else append. -/
def registrySet (m : Registry) (k : String) (v : CliProcess) : Registry :=
  if m.any (fun kv => kv.1 == k) then
    m.map (fun kv => if kv.1 == k then (k, v) else kv)
  else m ++ [(k, v)]

/-- JS `Map.prototype.delete`. -/
def registryDelete (m : Registry) (k : String) : Registry :=
  m.filter (fun kv => !(kv.1 == k))

/-- JS `Map.prototype.get`. -/
def registryGet (m : Registry) (k : String) : Option CliProcess :=
  (m.find? (fun kv => kv.1 == k)).map (·.2)

/-- `isPanelRunning(panelId)`: `this.processes.has(panelId)`. -/
def isPanelRunning (m : Registry) (k : String) : Bool :=
  (registryGet m k).isSome

/-- The registries reachable through the manager's operations: starting
empty, entries are only ever inserted by `spawnCliProcess` (lines 173-180),
which stores a record whose `panelId` field is the map key, and removed by
`killProcess` / the exit handler. -/
inductive ReachableRegistry : Registry → Prop where
  | empty : ReachableRegistry []
  | spawn (m : Registry) (panelId sessionId worktreePath : String) (pid : Nat) :
      ReachableRegistry m →
      ReachableRegistry (registrySet m panelId
        { pid := pid, panelId := panelId, sessionId := sessionId,
          worktreePath := worktreePath })
  | remove (m : Registry) (panelId : String) :
      ReachableRegistry m → ReachableRegistry (registryDelete m panelId)

/-- The outcome of `sendInput`: a write to the process, or one of the two
thrown errors. -/
inductive SendInputResult where
  | written (pid : Nat) (input : String)
  | failNoProcess (msg : List Char)
  | failMismatch (msg : List Char)
  deriving DecidableEq

/-- `sendInput(panelId, input)`: throw if no process is registered for the
panel; throw the mismatch error if the stored record's panelId differs from
the key; otherwise write the input to the process. -/
def sendInputModel (toolName : List Char) (m : Registry) (panelId : String)
    (input : String) : SendInputResult :=
  match registryGet m panelId with
  | none =>
    .failNoProcess ("No ".toList ++ toolName ++ " process found for panel ".toList ++
      panelId.toList)
  | some p =>
    if p.panelId != panelId then
      .failMismatch "Panel ID mismatch: process belongs to different panel".toList
    else
      .written p.pid input

/-- Every reachable registry stores each record under its own panelId. -/
theorem reachable_key_eq_panelId (m : Registry) (h : ReachableRegistry m) :
    ∀ kv ∈ m, kv.2.panelId = kv.1 := by
  induction h with
  | empty => intro kv hkv; exact absurd hkv (List.not_mem_nil kv)
  | spawn m panelId sessionId worktreePath pid _ ih =>
    intro kv hkv
    rw [registrySet] at hkv
    split at hkv
    · obtain ⟨kv0, hkv0, heq⟩ := List.mem_map.1 hkv
      by_cases hk : kv0.1 == panelId
      · rw [if_pos hk] at heq
        subst heq
        rfl
      · rw [if_neg hk] at heq
        subst heq
        exact ih kv0 hkv0
    · rcases List.mem_append.1 hkv with hold | hnew
      · exact ih kv hold
      · simp only [List.mem_cons, List.not_mem_nil, or_false] at hnew
        subst hnew
        rfl
  | remove m panelId _ ih =>
    intro kv hkv
    exact ih kv (List.mem_of_mem_filter hkv)

/-- C10.  On every reachable registry, each entry's stored `panelId` field
equals the map key it sits under, so `sendInput`'s internal panel-mismatch
branch is unreachable: `sendInput` writes the input to the registered panel's
process when the panelId is present and throws the no-process error exactly
when it is absent. -/
theorem c10_sendInput_no_mismatch (toolName : List Char) (m : Registry)
    (panelId : String) (input : String) (h : ReachableRegistry m) :
    (∀ msg, sendInputModel toolName m panelId input ≠ .failMismatch msg) ∧
    (∀ p, registryGet m panelId = some p →
      sendInputModel toolName m panelId input = .written p.pid input) ∧
    (registryGet m panelId = none →
      sendInputModel toolName m panelId input =
        .failNoProcess ("No ".toList ++ toolName ++ " process found for panel ".toList ++
          panelId.toList)) ∧
    (∀ kv ∈ m, kv.2.panelId = kv.1) := by
  have hkey : ∀ p, registryGet m panelId = some p → p.panelId = panelId := by
    intro p hp
    obtain ⟨kv, hfind, hsnd⟩ := Option.map_eq_some'.1 hp
    have hmem : kv ∈ m := List.mem_of_find?_eq_some hfind
    have hbeq := List.find?_some hfind
    simp only [] at hbeq
    have := reachable_key_eq_panelId m h kv hmem
    rw [hsnd] at this
    rw [this]
    exact eq_of_beq hbeq
  refine ⟨?_, ?_, ?_, reachable_key_eq_panelId m h⟩
  · intro msg
    rw [sendInputModel]
    cases hg : registryGet m panelId with
    | none => simp
    | some p =>
      have hpn : (p.panelId != panelId) = false := by
        simp [hkey p hg]
      simp [hpn]
  · intro p hp
    rw [sendInputModel, hp]
    have hpn : (p.panelId != panelId) = false := by
      simp [hkey p hp]
    simp [hpn]
  · intro hnone
    rw [sendInputModel, hnone]

/-- A concrete reachable registry: spawn p1, spawn p2, remove p2, re-spawn p1
(JS `Map.set` replaces in place). -/
theorem c10_sendInput_no_mismatch_witness :
    (∀ msg, sendInputModel "claude".toList
        (registrySet (registryDelete (registrySet (registrySet []
            "p1" { pid := 7, panelId := "p1", sessionId := "s1", worktreePath := "/w1" })
            "p2" { pid := 8, panelId := "p2", sessionId := "s2", worktreePath := "/w2" })
            "p2")
            "p1" { pid := 9, panelId := "p1", sessionId := "s1", worktreePath := "/w1" })
        "p1" "hello" ≠ .failMismatch msg) ∧
    sendInputModel "claude".toList
        (registrySet (registryDelete (registrySet (registrySet []
            "p1" { pid := 7, panelId := "p1", sessionId := "s1", worktreePath := "/w1" })
            "p2" { pid := 8, panelId := "p2", sessionId := "s2", worktreePath := "/w2" })
            "p2")
            "p1" { pid := 9, panelId := "p1", sessionId := "s1", worktreePath := "/w1" })
        "p1" "hello" = .written 9 "hello" := by
  have h : ReachableRegistry
      (registrySet (registryDelete (registrySet (registrySet []
          "p1" { pid := 7, panelId := "p1", sessionId := "s1", worktreePath := "/w1" })
          "p2" { pid := 8, panelId := "p2", sessionId := "s2", worktreePath := "/w2" })
          "p2")
          "p1" { pid := 9, panelId := "p1", sessionId := "s1", worktreePath := "/w1" }) :=
    ReachableRegistry.spawn _ _ "s1" "/w1" 9
      (ReachableRegistry.remove _ "p2"
        (ReachableRegistry.spawn _ _ "s2" "/w2" 8
          (ReachableRegistry.spawn _ _ "s1" "/w1" 7 ReachableRegistry.empty)))
  have hc := c10_sendInput_no_mismatch "claude".toList _ "p1" "hello" h
  exact ⟨hc.1, hc.2.1
    { pid := 9, panelId := "p1", sessionId := "s1", worktreePath := "/w1" } (by decide)⟩

/-! ## Availability gate of `spawnCliProcess` (lines 131-201) and
`handleCliNotAvailable` / `getCliNotAvailableMessage` (lines 475-526) -/

/-- `getCliNotAvailableMessage(error)` (lines 509-526): the `join('\n')` of
the fourteen-element remediation array, flattened.  `getShellPath()` and the
tool name are parameters (the former lives outside this class). -/
def getCliNotAvailableMessage (toolName shellPath : List Char)
    (error : Option (List Char)) : List Char :=
  "Error: ".toList ++ error.getD "undefined".toList ++
  "\n\n".toList ++ toolName ++
  " is not installed or not found in your PATH.\n\nPlease install ".toList ++ toolName ++
  ":\n1. Follow the installation instructions for your platform\n2. Verify installation by running \"".toList ++
  toolName ++ " --version\" in your terminal\n\nIf ".toList ++ toolName ++
  " is installed but not in your PATH:\n- Add the ".toList ++ toolName ++
  " installation directory to your PATH environment variable\n- Or set a custom executable path in Crystal Settings\n\nEnhanced PATH searched: ".toList ++
  shellPath ++
  "\nAttempted command: ".toList ++ toolName ++ " --version".toList

/-- The `data` payload of the structured error OutputEvent emitted when the
tool is unavailable (lines 481-488). -/
structure SessionErrorPayload where
  status : List Char
  message : List Char
  details : List Char
  deriving DecidableEq

/-- The externally observable effects of `spawnCliProcess`. -/
inductive CliManagerEvent where
  | outputJson (panelId sessionId : String) (payload : SessionErrorPayload)
  | addSessionError (sessionId : String) (title details : List Char)
  | spawned (panelId sessionId : String)
  | errorEvent (panelId sessionId : String) (error : List Char)
  deriving DecidableEq

/-- `handleCliNotAvailable` (lines 475-504): emit the structured error
OutputEvent (type `json`) with remediation details, then record a dedicated
session error. -/
def handleCliNotAvailableModel (toolName shellPath : List Char)
    (error : Option (List Char)) (panelId sessionId : String) : List CliManagerEvent :=
  [ .outputJson panelId sessionId
      { status := "error".toList,
        message := toolName ++ " not available".toList,
        details := getCliNotAvailableMessage toolName shellPath error },
    .addSessionError sessionId (toolName ++ " not available".toList)
      (error.getD "undefined".toList ++ "\nPlease install ".toList ++ toolName ++
        " or verify it is in your PATH.".toList) ]

/-- The outcome of one `spawnCliProcess` call: emitted events, the `processes`
map afterwards, and normal return vs. thrown error. -/
structure SpawnCliOutcome where
  events : List CliManagerEvent
  processes : Registry
  result : Except (List Char) Unit

/-- `spawnCliProcess` (lines 131-201), with the argument/environment build and
the PTY spawn abstracted by `spawnResult`.  When the availability probe says
unavailable, `handleCliNotAvailable` runs and the call throws
`<tool> CLI not available: <error>`; the catch-all re-emits the thrown
message as an `error` event and rethrows.  Only a successful spawn inserts a
`CliProcess` (whose `panelId` field is the map key) and emits `spawned`. -/
def spawnCliProcessModel (toolName shellPath : List Char) (avail : AvailabilityResult)
    (spawnResult : Except (List Char) Nat) (procs : Registry)
    (panelId sessionId worktreePath : String) : SpawnCliOutcome :=
  if !avail.available then
    let notAvailMsg := toolName ++ " CLI not available: ".toList ++
      avail.error.getD "undefined".toList
    { events := handleCliNotAvailableModel toolName shellPath avail.error panelId sessionId ++
        [.errorEvent panelId sessionId notAvailMsg],
      processes := procs,
      result := .error notAvailMsg }
  else
    match spawnResult with
    | .error e =>
      { events := [.errorEvent panelId sessionId e], processes := procs,
        result := .error e }
    | .ok pid =>
      { events := [.spawned panelId sessionId],
        processes := registrySet procs panelId
          { pid := pid, panelId := panelId, sessionId := sessionId,
            worktreePath := worktreePath },
        result := .ok () }

theorem infix_extend_right {α : Type} (a l1 l2 : List α) (h : a <:+: l1) :
    a <:+: l1 ++ l2 := by
  obtain ⟨s, t, rfl⟩ := h
  exact ⟨s, t ++ l2, by simp⟩

/-- C8.  When the availability probe reports the tool unavailable, the start
operation emits a structured error OutputEvent whose remediation details
contain the searched shell path and the exact probe command
`<tool> --version`, then fails with an error, and registers nothing: the
`processes` map is unchanged and `isPanelRunning(panelId)` stays false. -/
theorem c8_unavailable_no_registration (toolName shellPath : List Char)
    (avail : AvailabilityResult) (spawnResult : Except (List Char) Nat)
    (procs : Registry) (panelId sessionId worktreePath : String)
    (hna : avail.available = false) :
    (spawnCliProcessModel toolName shellPath avail spawnResult procs
        panelId sessionId worktreePath).result =
      .error (toolName ++ " CLI not available: ".toList ++
        avail.error.getD "undefined".toList) ∧
    (spawnCliProcessModel toolName shellPath avail spawnResult procs
        panelId sessionId worktreePath).processes = procs ∧
    (isPanelRunning procs panelId = false →
      isPanelRunning (spawnCliProcessModel toolName shellPath avail spawnResult procs
        panelId sessionId worktreePath).processes panelId = false) ∧
    ∃ payload,
      CliManagerEvent.outputJson panelId sessionId payload ∈
        (spawnCliProcessModel toolName shellPath avail spawnResult procs
          panelId sessionId worktreePath).events ∧
      payload.status = "error".toList ∧
      shellPath <:+: payload.details ∧
      (toolName ++ " --version".toList) <:+: payload.details := by
  have hsp : shellPath <:+: getCliNotAvailableMessage toolName shellPath avail.error := by
    unfold getCliNotAvailableMessage
    apply infix_extend_right
    apply infix_extend_right
    apply infix_extend_right
    exact List.IsSuffix.isInfix (List.suffix_append _ _)
  have hcmd : (toolName ++ " --version".toList) <:+:
      getCliNotAvailableMessage toolName shellPath avail.error := by
    unfold getCliNotAvailableMessage
    rw [List.append_assoc]
    exact List.IsSuffix.isInfix (List.suffix_append _ _)
  have hgate : (!avail.available) = true := by rw [hna]; rfl
  refine ⟨?_, ?_, ?_, ?_⟩
  · rw [spawnCliProcessModel.eq_def, if_pos hgate]
  · rw [spawnCliProcessModel.eq_def, if_pos hgate]
  · intro hrun
    rw [spawnCliProcessModel.eq_def, if_pos hgate]
    exact hrun
  · refine ⟨⟨"error".toList, toolName ++ " not available".toList,
      getCliNotAvailableMessage toolName shellPath avail.error⟩,
      ?_, rfl, hsp, hcmd⟩
    rw [spawnCliProcessModel.eq_def, if_pos hgate]
    exact List.mem_append_left _ (List.mem_cons_self _ _)

theorem c8_unavailable_no_registration_witness :
    (spawnCliProcessModel "claude".toList "/usr/local/bin:/usr/bin".toList
        { available := false, error := some "Claude Code CLI not found in PATH".toList,
          version := none, path := none }
        (.ok 7) [] "p1" "s1" "/wt").result =
      .error ("claude".toList ++ " CLI not available: ".toList ++
        "Claude Code CLI not found in PATH".toList) ∧
    (spawnCliProcessModel "claude".toList "/usr/local/bin:/usr/bin".toList
        { available := false, error := some "Claude Code CLI not found in PATH".toList,
          version := none, path := none }
        (.ok 7) [] "p1" "s1" "/wt").processes = [] ∧
    isPanelRunning (spawnCliProcessModel "claude".toList
        "/usr/local/bin:/usr/bin".toList
        { available := false, error := some "Claude Code CLI not found in PATH".toList,
          version := none, path := none }
        (.ok 7) [] "p1" "s1" "/wt").processes "p1" = false ∧
    ∃ payload,
      CliManagerEvent.outputJson "p1" "s1" payload ∈
        (spawnCliProcessModel "claude".toList "/usr/local/bin:/usr/bin".toList
          { available := false, error := some "Claude Code CLI not found in PATH".toList,
            version := none, path := none }
          (.ok 7) [] "p1" "s1" "/wt").events ∧
      payload.status = "error".toList ∧
      "/usr/local/bin:/usr/bin".toList <:+: payload.details ∧
      ("claude".toList ++ " --version".toList) <:+: payload.details := by
  have h := c8_unavailable_no_registration "claude".toList
    "/usr/local/bin:/usr/bin".toList
    { available := false, error := some "Claude Code CLI not found in PATH".toList,
      version := none, path := none }
    (.ok 7) [] "p1" "s1" "/wt" rfl
  exact ⟨h.1, h.2.1, h.2.2.1 rfl, h.2.2.2⟩

/-! ## Process-tree reaping (`killProcessTree`, lines 888-995)

Every OS-level enumeration/kill invocation in the source is wrapped in its
own try/catch and its failure swallowed, so the operation sequence never
short-circuits; the model takes a failure flag for each invocation and shows
the trace of attempted operations is unaffected.  After the kill sequence, a
500ms settle delay and a re-enumeration of descendants decide success:
survivors produce a `stderr` diagnostic listing each remaining pid with a
best-effort name, and `success = false`. -/

/-- The OS-level operations `killProcessTree` attempts, in program order. -/
inductive KillOp where
  | sigtermRoot
  | sigtermGroup
  | graceWait
  | sigkillRoot
  | sigkillGroup
  | sigkillDescendant (p : Nat)
  | pkillChildren
  | taskkillTree
  | taskkillOne (p : Nat)
  | settleWait
  | reEnumerate
  | ptyKill
  deriving DecidableEq

/-- The environment a `killProcessTree` call runs against: the platform, the
descendants enumerated before killing, a failure flag for every individual
OS invocation (all of which the source catches), the descendants still alive
at re-enumeration, and best-effort process-name resolution. -/
structure KillEnv where
  isWindows : Bool
  descendantsBefore : List Nat
  sigtermRootFails : Bool
  sigtermGroupFails : Bool
  sigkillRootFails : Bool
  sigkillGroupFails : Bool
  descendantKillFails : Nat → Bool
  pkillFails : Bool
  taskkillTreeFails : Bool
  taskkillOneFails : Nat → Bool
  descendantsAfter : List Nat
  procName : Nat → Option (List Char)
  ptyKillFails : Bool

/-- `getProcessInfo` (lines 851-883): each pid resolves to its name, or
`'unknown'` when resolution fails or returns nothing. -/
def getProcessInfoModel (name : Nat → Option (List Char)) (pids : List Nat) :
    List (Nat × List Char) :=
  pids.map (fun p => (p, (name p).getD "unknown".toList))

/-- `remainingProcesses.map(p => p.name + "(" + p.pid + ")").join(', ')`. -/
def processReport (info : List (Nat × List Char)) : List Char :=
  List.intercalate ", ".toList
    (info.map (fun pr => pr.2 ++ "(".toList ++ (toString pr.1).toList ++ ")".toList))

/-- The `stderr` diagnostic text of lines 971-977. -/
def killWarningData (n : Nat) (report : List Char) : List Char :=
  "\n[WARNING] Failed to terminate ".toList ++ (toString n).toList ++
  " child process".toList ++ (if n > 1 then "es".toList else []) ++ ": ".toList ++
  report ++ "\nPlease manually kill these processes.\n".toList

/-- A diagnostic output event emitted by `killProcessTree`. -/
structure KillDiagEvent where
  etype : List Char
  data : List Char
  deriving DecidableEq

/-- What one `killProcessTree` call produces: the returned boolean, the
emitted diagnostic events, and the OS operations attempted. -/
structure KillResult where
  success : Bool
  events : List KillDiagEvent
  ops : List KillOp

/-- `killProcessTree(pid, …)`.  Windows: `taskkill /F /T`, falling back to a
per-descendant `taskkill /F` loop only when the tree kill itself failed.
Unix: SIGTERM to the root and the process group, a 200ms grace wait, SIGKILL
to the root, the group and each enumerated descendant, and a final
`pkill -9 -P`.  Then the 500ms settle wait, the re-enumeration verdict, and
the unconditional final kill of the tracked PTY handle. -/
def killProcessTreeModel (e : KillEnv) (pid : Nat) : KillResult :=
  let killOps :=
    if e.isWindows then
      if e.taskkillTreeFails then
        KillOp.taskkillTree :: e.descendantsBefore.map KillOp.taskkillOne
      else [KillOp.taskkillTree]
    else
      [KillOp.sigtermRoot, KillOp.sigtermGroup, KillOp.graceWait,
        KillOp.sigkillRoot, KillOp.sigkillGroup] ++
      e.descendantsBefore.map KillOp.sigkillDescendant ++ [KillOp.pkillChildren]
  let remaining := e.descendantsAfter
  let verdict : Bool × List KillDiagEvent :=
    if remaining.isEmpty then (true, [])
    else
      let info := getProcessInfoModel e.procName remaining
      (false, [⟨"stderr".toList, killWarningData remaining.length (processReport info)⟩])
  { success := verdict.1, events := verdict.2,
    ops := killOps ++ [KillOp.settleWait, KillOp.reEnumerate, KillOp.ptyKill] }

theorem infix_extend_left {α : Type} (a l1 l2 : List α) (h : a <:+: l2) :
    a <:+: l1 ++ l2 := by
  obtain ⟨s, t, rfl⟩ := h
  exact ⟨l1 ++ s, t, by simp⟩

theorem intercalate_cons_cons {α : Type} (sep a b : List α) (t : List (List α)) :
    List.intercalate sep (a :: b :: t) = a ++ sep ++ List.intercalate sep (b :: t) := by
  simp [List.intercalate, List.intersperse]

/-- Every element of a list is an infix of its separator-join. -/
theorem mem_infix_intercalate {α : Type} (sep : List α) (l : List (List α))
    (x : List α) (hx : x ∈ l) : x <:+: List.intercalate sep l := by
  induction l with
  | nil => exact absurd hx (List.not_mem_nil x)
  | cons a t ih =>
    cases t with
    | nil =>
      simp only [List.mem_cons, List.not_mem_nil, or_false] at hx
      subst hx
      simp [List.intercalate, List.intersperse]
    | cons b t2 =>
      rw [intercalate_cons_cons]
      rcases List.mem_cons.1 hx with rfl | hmem
      · exact infix_extend_right _ _ _ (infix_extend_right _ _ _ (List.infix_refl x))
      · exact infix_extend_left _ _ _ (ih hmem)

/-- Each remaining pid's decimal rendering is an infix of the diagnostic. -/
theorem pid_infix_killWarningData (name : Nat → Option (List Char)) (pids : List Nat)
    (n : Nat) (p : Nat) (hp : p ∈ pids) :
    (toString p).toList <:+:
      killWarningData n (processReport (getProcessInfoModel name pids)) := by
  have hentry : (toString p).toList <:+:
      ((name p).getD "unknown".toList ++ "(".toList ++ (toString p).toList ++
        ")".toList) := by
    apply infix_extend_right
    exact List.IsSuffix.isInfix (List.suffix_append _ _)
  have hmem : ((name p).getD "unknown".toList ++ "(".toList ++ (toString p).toList ++
      ")".toList) ∈
      (getProcessInfoModel name pids).map
        (fun pr => pr.2 ++ "(".toList ++ (toString pr.1).toList ++ ")".toList) := by
    refine List.mem_map.2 ⟨(p, (name p).getD "unknown".toList), ?_, rfl⟩
    exact List.mem_map.2 ⟨p, hp, rfl⟩
  have hreport : (toString p).toList <:+:
      processReport (getProcessInfoModel name pids) :=
    hentry.trans (mem_infix_intercalate _ _ _ hmem)
  rw [killWarningData]
  apply infix_extend_right
  apply infix_extend_left
  exact hreport

/-- C6.  `killProcessTree` never raises under any combination of individual
OS-call failures: it always returns a boolean verdict; it returns `true` with
no diagnostic exactly when the post-settle re-enumeration finds no surviving
descendant; when survivors remain it returns `false` and emits one `stderr`
diagnostic event whose text lists every remaining pid (with best-effort name
resolution); and the full Unix kill sequence, the settle wait, the
re-enumeration and the final PTY kill are attempted regardless of which
earlier calls failed. -/
theorem c6_killProcessTree_verdict (e : KillEnv) (pid : Nat) :
    (killProcessTreeModel e pid).success = e.descendantsAfter.isEmpty ∧
    (e.descendantsAfter = [] → (killProcessTreeModel e pid).events = []) ∧
    (e.descendantsAfter ≠ [] →
      (killProcessTreeModel e pid).success = false ∧
      ∃ ev, (killProcessTreeModel e pid).events = [ev] ∧
        ev.etype = "stderr".toList ∧
        ∀ p ∈ e.descendantsAfter, (toString p).toList <:+: ev.data) ∧
    KillOp.ptyKill ∈ (killProcessTreeModel e pid).ops ∧
    (e.isWindows = false →
      (killProcessTreeModel e pid).ops =
        [KillOp.sigtermRoot, KillOp.sigtermGroup, KillOp.graceWait,
          KillOp.sigkillRoot, KillOp.sigkillGroup] ++
        e.descendantsBefore.map KillOp.sigkillDescendant ++
        [KillOp.pkillChildren, KillOp.settleWait, KillOp.reEnumerate,
          KillOp.ptyKill]) := by
  refine ⟨?_, ?_, ?_, ?_, ?_⟩
  · rw [killProcessTreeModel.eq_def]
    cases he : e.descendantsAfter.isEmpty <;> simp [he]
  · intro hnil
    rw [killProcessTreeModel.eq_def]
    simp [hnil]
  · intro hne
    have hie : e.descendantsAfter.isEmpty = false := by
      cases hh : e.descendantsAfter with
      | nil => exact absurd hh hne
      | cons a t => rfl
    constructor
    · rw [killProcessTreeModel.eq_def]
      simp [hie]
    · refine ⟨⟨"stderr".toList,
        killWarningData e.descendantsAfter.length
          (processReport (getProcessInfoModel e.procName e.descendantsAfter))⟩,
        ?_, rfl, ?_⟩
      · rw [killProcessTreeModel.eq_def]
        simp [hie]
      · intro p hp
        exact pid_infix_killWarningData e.procName e.descendantsAfter
          e.descendantsAfter.length p hp
  · rw [killProcessTreeModel.eq_def]
    simp
  · intro hplat
    rw [killProcessTreeModel.eq_def]
    simp [hplat]

theorem c6_killProcessTree_verdict_witness :
    (killProcessTreeModel
        { isWindows := false, descendantsBefore := [42, 43],
          sigtermRootFails := true, sigtermGroupFails := true,
          sigkillRootFails := true, sigkillGroupFails := true,
          descendantKillFails := fun _ => true, pkillFails := true,
          taskkillTreeFails := false, taskkillOneFails := fun _ => false,
          descendantsAfter := [42, 43],
          procName := fun p => if p = 42 then some "node".toList else none,
          ptyKillFails := true } 41).success = false ∧
    ∃ ev, (killProcessTreeModel
        { isWindows := false, descendantsBefore := [42, 43],
          sigtermRootFails := true, sigtermGroupFails := true,
          sigkillRootFails := true, sigkillGroupFails := true,
          descendantKillFails := fun _ => true, pkillFails := true,
          taskkillTreeFails := false, taskkillOneFails := fun _ => false,
          descendantsAfter := [42, 43],
          procName := fun p => if p = 42 then some "node".toList else none,
          ptyKillFails := true } 41).events = [ev] ∧
      ev.etype = "stderr".toList ∧
      ∀ p ∈ [42, 43], (toString p).toList <:+: ev.data :=
  ((c6_killProcessTree_verdict
      { isWindows := false, descendantsBefore := [42, 43],
        sigtermRootFails := true, sigtermGroupFails := true,
        sigkillRootFails := true, sigkillGroupFails := true,
        descendantKillFails := fun _ => true, pkillFails := true,
        taskkillTreeFails := false, taskkillOneFails := fun _ => false,
        descendantsAfter := [42, 43],
        procName := fun p => if p = 42 then some "node".toList else none,
        ptyKillFails := true } 41).2.2.1 (by decide))

end Crystal
